import Mathlib

/-!
Verification development for the gamma-archiver repository.

This file gives a shallow embedding, in Lean 4, of the parts of the
program that the specification's claims are about:

* the REST retry backoff of `apiReq` (src/discord-api/rest.ts);
* the snowflake-array codec (src/db/generic-encoding.ts);
* the snapshot-add protocol and the reaction-removal requests of the
  database request handler (db/request-handler.ts);
* the permission-set update, channel-update handling and message-sync
  orchestration of src/archiver/cache.ts.

Machine integers (JS `bigint` / `number` values holding ids, permission
bitfields, timestamps and byte values) are embedded as `Nat`, with
explicit `% 2 ^ 64` where the source truncates to 64 bits.  JS `Map`s
are embedded as association lists, JS `Set`s as duplicate-free lists.
Fallible operations return `Except String`.
-/

namespace GammaArchiver

/-- Lookup in an association list, embedding `Map.prototype.get`. -/
def alookup {V : Type} (k : Nat) : List (Nat × V) → Option V
  | [] => none
  | (k1, v) :: rest => if k1 = k then some v else alookup k rest

/-- Replace the value stored under a key, embedding an SQL `UPDATE … WHERE id = k`
(or `Map.prototype.set` on a present key): every entry with key `k` gets value `v`. -/
def areplace {V : Type} (k : Nat) (v : V) (l : List (Nat × V)) : List (Nat × V) :=
  l.map fun p => if p.1 = k then (p.1, v) else p

/-- Add an element to a set embedded as a duplicate-free list (`Set.prototype.add`). -/
def setAdd (a : Nat) (s : List Nat) : List Nat :=
  if a ∈ s then s else s ++ [a]

/-- Remove an element from a set embedded as a list (`Set.prototype.delete`). -/
def setDelete (a : Nat) (s : List Nat) : List Nat :=
  s.filter (fun b => b ≠ a)

/-- The result enumeration of a snapshot add, from db/types.ts (`AddSnapshotResult`). -/
inductive AddSnapshotResult where
  | ADDED_FIRST_SNAPSHOT
  | ADDED_ANOTHER_SNAPSHOT
  | SAME_AS_LATEST
  | PARTIAL_NO_SNAPSHOT
deriving DecidableEq, Repr

/-! ## REST retry backoff (`apiReq`, src/discord-api/rest.ts)

The retry loop of `apiReq` initialises `interval = 0`; after every 5xx
response or network-layer failure it runs `await timeout(interval)` and
then `interval = Math.max(interval + 2_000, 60_000)`. -/

/-- The interval update performed after each failed attempt in `apiReq`:
`interval = Math.max(interval + 2_000, 60_000)` (rest.ts line 424). -/
def nextRetryInterval (interval : Nat) : Nat :=
  max (interval + 2000) 60000

/-- The waits performed by the retry loop of `apiReq`, given the current
`interval` and the sequence of attempt outcomes (`true` = 5xx or network
failure, `false` = a result was returned).  Each failure first waits
`interval`, then updates it with `nextRetryInterval`. -/
def apiReqDelays : Nat → List Bool → List Nat
  | _, [] => []
  | _, false :: _ => []
  | interval, true :: rest => interval :: apiReqDelays (nextRetryInterval interval) rest

/-- The waits of a run of `apiReq` that hits `n` consecutive failures
(`interval` starts at `0`). -/
def apiReqRetryDelays (n : Nat) : List Nat :=
  apiReqDelays 0 (List.replicate n true)

/-- C4: the claim says the retry delays after consecutive 5xx/network failures
are `0, 2000, 4000, …` capped at `60000` ms.  Evaluating the embedded retry
loop at three consecutive failures shows the code instead waits
`0, 60000, 62000` ms — `Math.max` is used where the claimed cap needs
`Math.min`, so the second delay jumps to the cap and the delays then grow
by 2000 ms without bound, exceeding 60000 ms from the third retry on. -/
theorem apiReq_backoff_at_failing_input :
    apiReqRetryDelays 3 = [0, 60000, 62000] ∧
    apiReqRetryDelays 3 ≠ (List.range 3).map (fun k => min (2000 * k) 60000) ∧
    60000 < (apiReqRetryDelays 3).getLast! := by
  decide

/-! ## Reaction removal requests (db/request-handler.ts)

The reactions table holds rows `(message_id, emoji, type, user_id, start, end)`;
a row is *open* while `end IS NULL`.  The handler prepares three removal
statements: by full key, by message, and by message and emoji. -/

/-- An emoji as stored in the database: `encodeEmoji` returns the custom
emoji id (a bigint) when `emoji.id != null` and the Unicode emoji name
(a string) otherwise. -/
inductive DBEmoji where
  | custom (id : Nat)
  | unicode (name : String)
deriving DecidableEq, Repr

/-- A row of the `reactions` table. -/
structure ReactionRow where
  message_id : Nat
  emoji : DBEmoji
  rtype : Nat
  user_id : Nat
  startT : Nat
  endT : Option Nat
deriving DecidableEq, Repr

/-- The prepared statement `markReactionAsRemoved`:
`UPDATE reactions SET end = :end WHERE message_id IS :message_id AND emoji IS :emoji
AND type IS :type AND user_id IS :user_id AND end IS NULL`. -/
def markReactionAsRemoved (rows : List ReactionRow) (m : Nat) (e : DBEmoji) (t u endTime : Nat) :
    List ReactionRow :=
  rows.map fun r =>
    if r.message_id = m ∧ r.emoji = e ∧ r.rtype = t ∧ r.user_id = u ∧ r.endT = none then
      { r with endT := some endTime }
    else r

/-- The prepared statement `markReactionsAsRemovedByMessage`:
`UPDATE reactions SET end = :end WHERE message_id IS :message_id AND end IS NULL`. -/
def markReactionsAsRemovedByMessage (rows : List ReactionRow) (m endTime : Nat) :
    List ReactionRow :=
  rows.map fun r =>
    if r.message_id = m ∧ r.endT = none then { r with endT := some endTime } else r

/-- The prepared statement `markReactionsAsRemovedByMessageAndEmoji`:
`UPDATE reactions SET end = :end WHERE message_id IS :message_id AND emoji IS :emoji
AND end IS NULL`.  (Prepared by the handler but never executed by it.) -/
def markReactionsAsRemovedByMessageAndEmoji (rows : List ReactionRow) (m : Nat) (e : DBEmoji)
    (endTime : Nat) : List ReactionRow :=
  rows.map fun r =>
    if r.message_id = m ∧ r.emoji = e ∧ r.endT = none then { r with endT := some endTime } else r

/-- The `MARK_REACTION_AS_REMOVED` request: runs `markReactionAsRemoved` with the
full `(message, emoji, type, user)` key. -/
def markReactionAsRemovedRequest (rows : List ReactionRow) (m : Nat) (e : DBEmoji)
    (t u endTime : Nat) : List ReactionRow :=
  markReactionAsRemoved rows m e t u endTime

/-- The `MARK_REACTIONS_AS_REMOVED_BULK` request handler.  With `emoji = null` it runs
`markReactionsAsRemovedByMessage`.  With a non-null emoji the source *also* runs
`statements.markReactionsAsRemovedByMessage` (request-handler.ts, the `else` branch of
`MARK_REACTIONS_AS_REMOVED_BULK`), binding an `emoji` parameter that this statement
has no placeholder for — better-sqlite3 ignores named parameters the statement does
not use (the handler relies on this throughout, e.g. `doesExist.get(object)` passes
whole objects to a one-parameter statement) — so it too closes every open row of the
message regardless of emoji. -/
def markReactionsAsRemovedBulkRequest (rows : List ReactionRow) (m : Nat)
    (emoji : Option DBEmoji) (endTime : Nat) : List ReactionRow :=
  match emoji with
  | none => markReactionsAsRemovedByMessage rows m endTime
  | some _ => markReactionsAsRemovedByMessage rows m endTime

/-- C8: the claim says `MARK_REACTIONS_AS_REMOVED_BULK` with a non-null emoji closes
only the open rows of the message whose emoji matches, leaving rows with other emojis
open.  Evaluating the handler on a message with open rows for emojis "a" and "b" and a
bulk removal naming emoji "a" shows the code closes *both* rows (it runs the by-message
statement; the by-message-and-emoji statement, whose behaviour matches the claim, is
never used).  The other two parts of the claim hold: the full-key removal closes only
the matching open row, and a null-emoji bulk removal closes all open rows. -/
theorem reaction_bulk_removal_at_failing_input :
    markReactionsAsRemovedBulkRequest
      [⟨1, .unicode "a", 0, 10, 0, none⟩, ⟨1, .unicode "b", 0, 11, 0, none⟩]
      1 (some (.unicode "a")) 5 =
      [⟨1, .unicode "a", 0, 10, 0, some 5⟩, ⟨1, .unicode "b", 0, 11, 0, some 5⟩] ∧
    markReactionsAsRemovedByMessageAndEmoji
      [⟨1, .unicode "a", 0, 10, 0, none⟩, ⟨1, .unicode "b", 0, 11, 0, none⟩]
      1 (.unicode "a") 5 =
      [⟨1, .unicode "a", 0, 10, 0, some 5⟩, ⟨1, .unicode "b", 0, 11, 0, none⟩] ∧
    markReactionAsRemovedRequest
      [⟨1, .unicode "a", 0, 10, 0, none⟩, ⟨1, .unicode "a", 0, 11, 0, none⟩]
      1 (.unicode "a") 0 10 5 =
      [⟨1, .unicode "a", 0, 10, 0, some 5⟩, ⟨1, .unicode "a", 0, 11, 0, none⟩] ∧
    markReactionsAsRemovedBulkRequest
      [⟨1, .unicode "a", 0, 10, 0, none⟩, ⟨1, .unicode "b", 0, 11, 0, none⟩]
      1 none 5 =
      [⟨1, .unicode "a", 0, 10, 0, some 5⟩, ⟨1, .unicode "b", 0, 11, 0, some 5⟩] := by
  decide

/-! ## Channel-update permission handling (src/archiver/cache.ts, ChannelUpdate)

On a `ChannelUpdate` dispatch for a cached guild channel the handler builds the
incoming overwrite map, then computes
`didPermsChange = areMapsEqual(cachedChannel.permissionOverwrites,
cachedChannel.permissionOverwrites, …)` — comparing the cached map *with itself* —
and, when that is `true`, stores the incoming overwrites and recomputes the
per-channel permission sets. -/

/-- A permission-overwrite pair `{ allow, deny }` of 64-bit bitfields. -/
structure OverwritePair where
  allow : Nat
  deny : Nat
deriving DecidableEq, Repr

/-- Modelled from the spec: `areMapsEqual` from the missing file
src/util/map-equality.ts.  Two maps are equal when they have the same size and
every key of the first maps to a value the comparator accepts in the second. -/
def areMapsEqual {V : Type} (m1 m2 : List (Nat × V)) (cmp : V → V → Bool) : Bool :=
  m1.length = m2.length ∧
    m1.all fun p =>
      match alookup p.1 m2 with
      | some v2 => cmp p.2 v2
      | none => false

/-- The overwrite-comparison part of the `ChannelUpdate` dispatch handler
(cache.ts lines 1083-1090): it computes `didPermsChange` by comparing the cached
overwrite map with itself, and when that flag is `true` it replaces the cached
overwrites with the incoming map and recomputes the permission sets
(`updateGuildChannelPermissions`).  Returns the recompute flag and the overwrite
map the channel caches afterwards. -/
def channelUpdateOverwriteHandling (cached incoming : List (Nat × OverwritePair)) :
    Bool × List (Nat × OverwritePair) :=
  let didPermsChange := areMapsEqual cached cached
    (fun a b => a.allow = b.allow ∧ a.deny = b.deny)
  if didPermsChange then (true, incoming) else (false, cached)

/-- C9: the claim says the handler recomputes the permission sets exactly when the
incoming overwrite map differs from the previously cached one, and leaves everything
unchanged when they are equal.  Evaluating the handler on an update whose overwrites
equal the cached map shows the recompute still happens: `didPermsChange` is the result
of comparing the cached map with itself, which is always `true`, so the handler
replaces the overwrites and recomputes on every cacheable channel update, equal or
not. -/
theorem channelUpdate_recompute_at_failing_input :
    (channelUpdateOverwriteHandling [(1, ⟨3, 4⟩)] [(1, ⟨3, 4⟩)]).1 = true ∧
    areMapsEqual [(1, (⟨3, 4⟩ : OverwritePair))] [(1, ⟨3, 4⟩)]
      (fun a b => a.allow = b.allow ∧ a.deny = b.deny) = true := by
  decide

/-! ## Snowflake arrays (src/db/generic-encoding.ts)

`encodeSnowflakeArray` packs an array of decimal strings into 8 bytes per element,
big-endian (`DataView.setBigUint64`); `decodeSnowflakeArray` rejects byte lengths
that are not a multiple of 8 and converts each 8-byte group back to its decimal
string.  A decimal string representing an integer in `[0, 2^64)` is embedded as
the `Nat` it denotes (`BigInt(s)` and `String(n)` are the coercions between the
two representations); a byte buffer is embedded as a `List Nat` of byte values. -/

/-- The 8 big-endian bytes written by `dv.setBigUint64(i*8, BigInt(array[i]))`;
`setBigUint64` truncates its argument to 64 bits. -/
def natToBE8 (n : Nat) : List Nat :=
  [n % 2 ^ 64 / 2 ^ 56 % 256, n % 2 ^ 64 / 2 ^ 48 % 256,
   n % 2 ^ 64 / 2 ^ 40 % 256, n % 2 ^ 64 / 2 ^ 32 % 256,
   n % 2 ^ 64 / 2 ^ 24 % 256, n % 2 ^ 64 / 2 ^ 16 % 256,
   n % 2 ^ 64 / 2 ^ 8 % 256, n % 2 ^ 64 % 256]

/-- The value read back by `dv.getBigUint64` from 8 big-endian bytes. -/
def beVal8 (b0 b1 b2 b3 b4 b5 b6 b7 : Nat) : Nat :=
  ((((((b0 * 256 + b1) * 256 + b2) * 256 + b3) * 256 + b4) * 256 + b5) * 256 + b6) * 256 + b7

/-- `encodeSnowflakeArray`: one 8-byte big-endian group per element. -/
def encodeSnowflakeArray (array : List Nat) : List Nat :=
  array.flatMap natToBE8

/-- The loop of `decodeSnowflakeArray`: read the buffer 8 bytes at a time. -/
def decodeSnowflakeChunks : List Nat → List Nat
  | b0 :: b1 :: b2 :: b3 :: b4 :: b5 :: b6 :: b7 :: rest =>
    beVal8 b0 b1 b2 b3 b4 b5 b6 b7 :: decodeSnowflakeChunks rest
  | _ => []

/-- `decodeSnowflakeArray`: throws a `TypeError` when the byte length is not a
multiple of 8, otherwise decodes each 8-byte big-endian group. -/
def decodeSnowflakeArray (buf : List Nat) : Except String (List Nat) :=
  if buf.length % 8 ≠ 0 then .error "Size not a multiple of 8 bytes."
  else .ok (decodeSnowflakeChunks buf)

theorem beVal8_natToBE8 (n : Nat) (h : n < 2 ^ 64) :
    (natToBE8 n).length = 8 ∧
      beVal8 (n % 2 ^ 64 / 2 ^ 56 % 256) (n % 2 ^ 64 / 2 ^ 48 % 256)
        (n % 2 ^ 64 / 2 ^ 40 % 256) (n % 2 ^ 64 / 2 ^ 32 % 256)
        (n % 2 ^ 64 / 2 ^ 24 % 256) (n % 2 ^ 64 / 2 ^ 16 % 256)
        (n % 2 ^ 64 / 2 ^ 8 % 256) (n % 2 ^ 64 % 256) = n := by
  refine ⟨rfl, ?_⟩
  have h2 : n % 2 ^ 64 = n := Nat.mod_eq_of_lt h
  rw [h2]
  unfold beVal8
  omega

theorem decodeSnowflakeChunks_cons (n : Nat) (rest : List Nat) (h : n < 2 ^ 64) :
    decodeSnowflakeChunks (natToBE8 n ++ rest) = n :: decodeSnowflakeChunks rest := by
  have h3 := (beVal8_natToBE8 n h).2
  simp only [natToBE8, List.cons_append, List.nil_append, decodeSnowflakeChunks]
  rw [h3]
  rfl

/-- C10: encoding then decoding an array of snowflakes (decimal strings for
integers in `[0, 2^64)`, embedded as the integers they denote) returns the array
unchanged; the encoding produces exactly 8 bytes per element; and decoding any
buffer whose byte length is not a multiple of 8 raises a `TypeError`. -/
theorem snowflakeArray_roundtrip (a : List Nat) (ha : ∀ n ∈ a, n < 2 ^ 64) :
    decodeSnowflakeArray (encodeSnowflakeArray a) = .ok a ∧
    (encodeSnowflakeArray a).length = 8 * a.length ∧
    ∀ buf : List Nat, buf.length % 8 ≠ 0 →
      decodeSnowflakeArray buf = .error "Size not a multiple of 8 bytes." := by
  have hlen : ∀ b : List Nat, (∀ n ∈ b, n < 2 ^ 64) →
      (encodeSnowflakeArray b).length = 8 * b.length := by
    intro b
    induction b with
    | nil => intro _; rfl
    | cons x xs ih =>
      intro hb
      have hx : x < 2 ^ 64 := hb x (List.mem_cons_self x xs)
      have hxs := ih (fun n hn => hb n (List.mem_cons_of_mem x hn))
      simp only [encodeSnowflakeArray, List.flatMap_cons] at hxs ⊢
      rw [List.length_append, hxs, (beVal8_natToBE8 x hx).1, List.length_cons]
      ring
  have hchunks : ∀ b : List Nat, (∀ n ∈ b, n < 2 ^ 64) →
      decodeSnowflakeChunks (encodeSnowflakeArray b) = b := by
    intro b
    induction b with
    | nil => intro _; rfl
    | cons x xs ih =>
      intro hb
      have hx : x < 2 ^ 64 := hb x (List.mem_cons_self x xs)
      have hxs := ih (fun n hn => hb n (List.mem_cons_of_mem x hn))
      simp only [encodeSnowflakeArray, List.flatMap_cons] at hxs ⊢
      rw [decodeSnowflakeChunks_cons x _ hx, hxs]
  refine ⟨?_, hlen a ha, ?_⟩
  · unfold decodeSnowflakeArray
    rw [hlen a ha]
    simp only [Nat.mul_mod_right, ne_eq, not_true_eq_false, if_false, ite_false]
    rw [hchunks a ha]
  · intro buf hbuf
    unfold decodeSnowflakeArray
    simp [hbuf]

/-- Witness for `snowflakeArray_roundtrip` at the concrete array
`[0, 1, 2^64 - 1]`. -/
theorem snowflakeArray_roundtrip_witness :
    decodeSnowflakeArray (encodeSnowflakeArray [0, 1, 18446744073709551615]) =
      .ok [0, 1, 18446744073709551615] ∧
    (encodeSnowflakeArray [0, 1, 18446744073709551615]).length = 8 * 3 ∧
    ∀ buf : List Nat, buf.length % 8 ≠ 0 →
      decodeSnowflakeArray buf = .error "Size not a multiple of 8 bytes." := by
  have h := snowflakeArray_roundtrip [0, 1, 18446744073709551615] (by decide)
  simpa using h

/-! ## Snapshot adds (db/request-handler.ts, `addSnapshot`)

Each entity kind has a `latest_*_snapshots` table (one row per id) and a
`previous_*_snapshots` history table.  A row is embedded as its monitored
("snapshot") columns — abstracted to one comparable value of a type `F`,
since `isLatestSnapshotEqual` compares them as a tuple with `IS` — plus
the `_timestamp` column (an encoded timing, a non-negative bigint). -/

/-- A snapshot row: the monitored columns plus the `_timestamp` column. -/
structure SnapshotRow (F : Type) where
  fields : F
  timestamp : Nat
deriving DecidableEq, Repr

/-- The latest- and previous-snapshot tables of one entity kind, keyed by id. -/
structure SnapshotTables (F : Type) where
  latest : List (Nat × SnapshotRow F)
  previous : List (Nat × SnapshotRow F)
deriving DecidableEq, Repr

/-- The `addSnapshot` function of db/request-handler.ts for a full add
(`partial = false`, `checkIfChanged = true`):

* no latest row for the id (`doesExist`) → `addLatestSnapshot`, result
  `ADDED_FIRST_SNAPSHOT`;
* the monitored fields equal the latest row (`isLatestSnapshotEqual`) →
  no write, result `SAME_AS_LATEST`;
* otherwise, if the new `_timestamp` is not strictly greater than the stored
  one (`getTimestamp`) → throw a `RangeError` before any write;
* otherwise `copyLatestSnapshot` into the previous table, then
  `replaceLatestSnapshot` in place, result `ADDED_ANOTHER_SNAPSHOT`.

The first component is the returned result or the thrown error; the second is
the table state after the request. -/
def addSnapshot {F : Type} [DecidableEq F] (st : SnapshotTables F) (id : Nat)
    (obj : SnapshotRow F) : Except String AddSnapshotResult × SnapshotTables F :=
  match alookup id st.latest with
  | none =>
    (.ok .ADDED_FIRST_SNAPSHOT, { st with latest := st.latest ++ [(id, obj)] })
  | some row =>
    if row.fields = obj.fields then
      (.ok .SAME_AS_LATEST, st)
    else if obj.timestamp ≤ row.timestamp then
      (.error "The added snapshot is not more recent than the latest one in the database but it's not equal to it.", st)
    else
      (.ok .ADDED_ANOTHER_SNAPSHOT,
        { latest := areplace id obj st.latest, previous := st.previous ++ [(id, row)] })

theorem alookup_append_right {V : Type} (k : Nat) (v : V) (l : List (Nat × V))
    (h : alookup k l = none) : alookup k (l ++ [(k, v)]) = some v := by
  induction l with
  | nil => simp [alookup]
  | cons p rest ih =>
    rw [alookup] at h
    by_cases hk : p.1 = k
    · rw [if_pos hk] at h
      exact absurd h (by simp)
    · rw [if_neg hk] at h
      rw [List.cons_append, alookup, if_neg hk]
      exact ih h

theorem addSnapshot_of_none {F : Type} [DecidableEq F] (st : SnapshotTables F) (id : Nat)
    (obj : SnapshotRow F) (h : alookup id st.latest = none) :
    addSnapshot st id obj =
      (.ok .ADDED_FIRST_SNAPSHOT, { st with latest := st.latest ++ [(id, obj)] }) := by
  unfold addSnapshot
  rw [h]

theorem addSnapshot_of_some {F : Type} [DecidableEq F] (st : SnapshotTables F) (id : Nat)
    (obj row : SnapshotRow F) (h : alookup id st.latest = some row) :
    addSnapshot st id obj =
      if row.fields = obj.fields then (.ok .SAME_AS_LATEST, st)
      else if obj.timestamp ≤ row.timestamp then
        (.error "The added snapshot is not more recent than the latest one in the database but it's not equal to it.", st)
      else
        (.ok .ADDED_ANOTHER_SNAPSHOT,
          { latest := areplace id obj st.latest, previous := st.previous ++ [(id, row)] }) := by
  unfold addSnapshot
  rw [h]

/-- C6: semantics of a full snapshot add.  With no row for the id, the add
inserts a latest row and returns `ADDED_FIRST_SNAPSHOT`; with an equal latest
row it writes nothing and returns `SAME_AS_LATEST`; with a different latest row
(and a strictly newer timestamp) it copies the latest row into the previous
table and updates the latest row in place, returning `ADDED_ANOTHER_SNAPSHOT`.
Consequently adding the same object twice in a row performs exactly one insert
followed by one no-op. -/
theorem addSnapshot_full_semantics {F : Type} [DecidableEq F] (st : SnapshotTables F)
    (id : Nat) (obj : SnapshotRow F) :
    (alookup id st.latest = none →
      addSnapshot st id obj =
        (.ok .ADDED_FIRST_SNAPSHOT, { st with latest := st.latest ++ [(id, obj)] })) ∧
    (∀ row, alookup id st.latest = some row → row.fields = obj.fields →
      addSnapshot st id obj = (.ok .SAME_AS_LATEST, st)) ∧
    (∀ row, alookup id st.latest = some row → row.fields ≠ obj.fields →
      row.timestamp < obj.timestamp →
      addSnapshot st id obj =
        (.ok .ADDED_ANOTHER_SNAPSHOT,
          { latest := areplace id obj st.latest, previous := st.previous ++ [(id, row)] })) ∧
    (alookup id st.latest = none →
      addSnapshot { latest := st.latest ++ [(id, obj)], previous := st.previous } id obj =
        (.ok .SAME_AS_LATEST, { latest := st.latest ++ [(id, obj)], previous := st.previous })) := by
  refine ⟨?_, ?_, ?_, ?_⟩
  · intro h
    exact addSnapshot_of_none st id obj h
  · intro row h heq
    rw [addSnapshot_of_some st id obj row h, if_pos heq]
  · intro row h hne hts
    rw [addSnapshot_of_some st id obj row h, if_neg hne,
      if_neg (by omega : ¬ obj.timestamp ≤ row.timestamp)]
  · intro h
    rw [addSnapshot_of_some { latest := st.latest ++ [(id, obj)], previous := st.previous }
      id obj obj (alookup_append_right id obj st.latest h), if_pos rfl]

/-- Witness for `addSnapshot_full_semantics` at concrete tables over `F = Nat`:
the empty table, a table whose latest row for id 1 is equal to the added object,
and one whose latest row differs with an older timestamp. -/
theorem addSnapshot_full_semantics_witness :
    addSnapshot (F := Nat) ⟨[], []⟩ 1 ⟨7, 5⟩ =
      (.ok .ADDED_FIRST_SNAPSHOT, ⟨[(1, ⟨7, 5⟩)], []⟩) ∧
    addSnapshot (F := Nat) ⟨[(1, ⟨7, 5⟩)], []⟩ 1 ⟨7, 5⟩ =
      (.ok .SAME_AS_LATEST, ⟨[(1, ⟨7, 5⟩)], []⟩) ∧
    addSnapshot (F := Nat) ⟨[(1, ⟨7, 5⟩)], []⟩ 1 ⟨8, 6⟩ =
      (.ok .ADDED_ANOTHER_SNAPSHOT, ⟨[(1, ⟨8, 6⟩)], [(1, ⟨7, 5⟩)]⟩) := by
  have h1 := (addSnapshot_full_semantics (F := Nat) ⟨[], []⟩ 1 ⟨7, 5⟩).1 (by decide)
  have h2 := (addSnapshot_full_semantics (F := Nat) ⟨[(1, ⟨7, 5⟩)], []⟩ 1 ⟨7, 5⟩).2.1
    ⟨7, 5⟩ (by decide) (by decide)
  have h3 := (addSnapshot_full_semantics (F := Nat) ⟨[(1, ⟨7, 5⟩)], []⟩ 1 ⟨8, 6⟩).2.2.1
    ⟨7, 5⟩ (by decide) (by decide) (by decide)
  exact ⟨by simpa using h1, by simpa using h2, by simpa using h3⟩

/-- C7: a full snapshot add throws (the `RangeError` that surfaces as a fatal
programming error) exactly when the added object differs from the latest stored
row while its timestamp is not strictly greater than the stored one, and a
throwing request leaves both snapshot tables unchanged. -/
theorem addSnapshot_error_iff {F : Type} [DecidableEq F] (st : SnapshotTables F)
    (id : Nat) (obj : SnapshotRow F) :
    ((∃ msg, (addSnapshot st id obj).1 = .error msg) ↔
      (∃ row, alookup id st.latest = some row ∧ row.fields ≠ obj.fields ∧
        obj.timestamp ≤ row.timestamp)) ∧
    (∀ msg, (addSnapshot st id obj).1 = .error msg → (addSnapshot st id obj).2 = st) := by
  constructor
  · constructor
    · intro ⟨msg, hmsg⟩
      cases hrow : alookup id st.latest with
      | none =>
        rw [addSnapshot_of_none st id obj hrow] at hmsg
        exact absurd hmsg (by simp)
      | some row =>
        rw [addSnapshot_of_some st id obj row hrow] at hmsg
        by_cases heq : row.fields = obj.fields
        · rw [if_pos heq] at hmsg; exact absurd hmsg (by simp)
        · rw [if_neg heq] at hmsg
          by_cases hts : obj.timestamp ≤ row.timestamp
          · exact ⟨row, rfl, heq, hts⟩
          · rw [if_neg hts] at hmsg; exact absurd hmsg (by simp)
    · intro ⟨row, hrow, hne, hts⟩
      rw [addSnapshot_of_some st id obj row hrow, if_neg hne, if_pos hts]
      exact ⟨_, rfl⟩
  · intro msg hmsg
    cases hrow : alookup id st.latest with
    | none =>
      rw [addSnapshot_of_none st id obj hrow] at hmsg
      exact absurd hmsg (by simp)
    | some row =>
      rw [addSnapshot_of_some st id obj row hrow] at hmsg ⊢
      by_cases heq : row.fields = obj.fields
      · rw [if_pos heq] at hmsg; exact absurd hmsg (by simp)
      · rw [if_neg heq] at hmsg ⊢
        by_cases hts : obj.timestamp ≤ row.timestamp
        · rw [if_pos hts]
        · rw [if_neg hts] at hmsg; exact absurd hmsg (by simp)

/-- Witness for `addSnapshot_error_iff` over `F = Nat`: a latest row with fields
`7` and timestamp `5`, and an added object with different fields and an equal
timestamp, throws and leaves the tables unchanged. -/
theorem addSnapshot_error_iff_witness :
    (∃ msg, (addSnapshot (F := Nat) ⟨[(1, ⟨7, 5⟩)], []⟩ 1 ⟨8, 5⟩).1 = .error msg) ∧
    (addSnapshot (F := Nat) ⟨[(1, ⟨7, 5⟩)], []⟩ 1 ⟨8, 5⟩).2 = ⟨[(1, ⟨7, 5⟩)], []⟩ := by
  have h := addSnapshot_error_iff (F := Nat) ⟨[(1, ⟨7, 5⟩)], []⟩ 1 ⟨8, 5⟩
  have herr : ∃ msg, (addSnapshot (F := Nat) ⟨[(1, ⟨7, 5⟩)], []⟩ 1 ⟨8, 5⟩).1 = .error msg :=
    h.1.mpr ⟨⟨7, 5⟩, by decide, by decide, by decide⟩
  obtain ⟨msg, hmsg⟩ := herr
  exact ⟨⟨msg, hmsg⟩, h.2 msg hmsg⟩

/-! ## Channel permission sets (src/archiver/cache.ts, `updateGuildChannelPermissions`)

`updateGuildChannelPermissions` recomputes, for every account of the channel's
guild, the channel permissions and membership in the channel's
`accountsWithReadPermission` and `accountsWithManageThreadsPermission` sets.
The permission engine itself lives in src/archiver/permissions.ts, which is not
part of the provided sources; it is modelled from the spec below. -/

/-- The `VIEW_CHANNEL` permission bit (`PermissionFlagsBits.ViewChannel`). -/
def VIEW_CHANNEL : Nat := 2 ^ 10

/-- The `READ_MESSAGE_HISTORY` permission bit (`PermissionFlagsBits.ReadMessageHistory`). -/
def READ_MESSAGE_HISTORY : Nat := 2 ^ 16

/-- The `MANAGE_THREADS` permission bit (`PermissionFlagsBits.ManageThreads`). -/
def MANAGE_THREADS : Nat := 2 ^ 34

/-- An all-ones 64-bit permission bitfield. -/
def ALL_PERMISSIONS : Nat := 2 ^ 64 - 1

/-- The per-account data cached for a guild (`GuildAccountData` in
src/archiver/cache.ts): the account's role ids and its computed guild
permission bitfield. -/
structure GuildAccountData where
  roles : List Nat
  guildPermissions : Nat
deriving DecidableEq, Repr

/-- The part of a `CachedGuild` that channel-permission computation reads:
its id (which is also the id of the `@everyone` role), the owner id, and the
per-account data map. -/
structure CachedGuild where
  id : Nat
  ownerID : Nat
  accountData : List (Nat × GuildAccountData)
deriving DecidableEq, Repr

/-- The part of a `CachedChannel` that `updateGuildChannelPermissions` reads and
writes: the permission-overwrite map and the two account sets. -/
structure CachedChannelPerms where
  permissionOverwrites : List (Nat × OverwritePair)
  accountsWithReadPermission : List Nat
  accountsWithManageThreadsPermission : List Nat
deriving DecidableEq, Repr

/-- Modelled from the spec: applying one `(allow, deny)` overwrite pair clears
the denied bits and then sets the allowed bits. -/
def applyOverwrite (perms allow deny : Nat) : Nat :=
  (perms &&& (ALL_PERMISSIONS ^^^ deny)) ||| allow

/-- Modelled from the spec: `computeChannelPermissions` from the missing file
src/archiver/permissions.ts.  It starts from the account's guild permissions and
applies the channel's overwrites in the platform's documented order: the
`@everyone` overwrite (keyed by the guild id), then the deny and allow masks of
the account's role overwrites OR'd across roles, then the member overwrite
(keyed by the account id). -/
def computeChannelPermissions (accountID : Nat) (guild : CachedGuild)
    (channel : CachedChannelPerms) (accountData : GuildAccountData) : Nat :=
  let base := accountData.guildPermissions
  let p1 :=
    match alookup guild.id channel.permissionOverwrites with
    | some o => applyOverwrite base o.allow o.deny
    | none => base
  let denyMask := accountData.roles.foldl
    (fun acc rid =>
      acc ||| (match alookup rid channel.permissionOverwrites with
        | some o => o.deny
        | none => 0)) 0
  let allowMask := accountData.roles.foldl
    (fun acc rid =>
      acc ||| (match alookup rid channel.permissionOverwrites with
        | some o => o.allow
        | none => 0)) 0
  let p2 := applyOverwrite p1 allowMask denyMask
  match alookup accountID channel.permissionOverwrites with
  | some o => applyOverwrite p2 o.allow o.deny
  | none => p2

/-- Modelled from the spec: `hasChannelPermissions` from the missing file
src/archiver/permissions.ts.  The test is `(computed & required) == required`
with `VIEW_CHANNEL` always required in addition to the requested bits: both the
spec's invariant and the doc comments on `accountsWithReadPermission` and
`accountsWithManageThreadsPermission` in src/archiver/cache.ts state that these
sets mean "has VIEW_CHANNEL and the listed permissions", while the call sites
pass only `ReadMessageHistory` resp. `ManageThreads`. -/
def hasChannelPermissions (permissions required : Nat) : Bool :=
  permissions &&& (required ||| VIEW_CHANNEL) == required ||| VIEW_CHANNEL

/-- The loop body of `updateGuildChannelPermissions` (cache.ts lines 605-627)
for one account: recompute the channel permissions, then add the account to /
remove it from the two sets.  The `else if` guard of the manage-threads branch
tests membership in `accountsWithReadPermission`, as the source does. -/
def updateChannelPermsForAccount (guild : CachedGuild) (channel : CachedChannelPerms)
    (accountID : Nat) (accountData : GuildAccountData) : CachedChannelPerms :=
  let permissions := computeChannelPermissions accountID guild channel accountData
  let hasReadPermission := hasChannelPermissions permissions READ_MESSAGE_HISTORY
  let hasManageThreadsPermission :=
    hasReadPermission && hasChannelPermissions permissions MANAGE_THREADS
  let c1 :=
    if hasReadPermission then
      { channel with
        accountsWithReadPermission := setAdd accountID channel.accountsWithReadPermission }
    else if accountID ∈ channel.accountsWithReadPermission then
      { channel with
        accountsWithReadPermission := setDelete accountID channel.accountsWithReadPermission }
    else channel
  if hasManageThreadsPermission then
    { c1 with
      accountsWithManageThreadsPermission := setAdd accountID c1.accountsWithManageThreadsPermission }
  else if accountID ∈ c1.accountsWithReadPermission then
    { c1 with
      accountsWithManageThreadsPermission := setDelete accountID c1.accountsWithManageThreadsPermission }
  else c1

/-- The account loop of `updateGuildChannelPermissions`: the per-account update
run over every entry of the guild's `accountData` map.  (The tail of the source
function aborts and re-spawns syncs; it does not modify the two account sets.) -/
def updateGuildChannelPermissions (guild : CachedGuild) (channel : CachedChannelPerms) :
    CachedChannelPerms :=
  guild.accountData.foldl
    (fun ch p => updateChannelPermsForAccount guild ch p.1 p.2) channel

theorem mem_setAdd_self (a : Nat) (s : List Nat) : a ∈ setAdd a s := by
  unfold setAdd
  by_cases h : a ∈ s
  · rwa [if_pos h]
  · rw [if_neg h]
    simp

theorem mem_setAdd_of_ne (a b : Nat) (s : List Nat) (h : b ≠ a) :
    b ∈ setAdd a s ↔ b ∈ s := by
  unfold setAdd
  by_cases hm : a ∈ s
  · rw [if_pos hm]
  · rw [if_neg hm]
    simp [h]

theorem not_mem_setDelete_self (a : Nat) (s : List Nat) : a ∉ setDelete a s := by
  unfold setDelete
  simp

theorem mem_setDelete_of_ne (a b : Nat) (s : List Nat) (h : b ≠ a) :
    b ∈ setDelete a s ↔ b ∈ s := by
  unfold setDelete
  simp [h]

theorem updateChannelPermsForAccount_overwrites (guild : CachedGuild)
    (channel : CachedChannelPerms) (accountID : Nat) (accountData : GuildAccountData) :
    (updateChannelPermsForAccount guild channel accountID accountData).permissionOverwrites =
      channel.permissionOverwrites := by
  simp only [updateChannelPermsForAccount]
  repeat' split
  all_goals rfl

theorem updateChannelPermsForAccount_read_eq (guild : CachedGuild)
    (channel : CachedChannelPerms) (accountID : Nat) (accountData : GuildAccountData) :
    (updateChannelPermsForAccount guild channel accountID
        accountData).accountsWithReadPermission =
      (if hasChannelPermissions (computeChannelPermissions accountID guild channel accountData)
          READ_MESSAGE_HISTORY then
        setAdd accountID channel.accountsWithReadPermission
      else if accountID ∈ channel.accountsWithReadPermission then
        setDelete accountID channel.accountsWithReadPermission
      else channel.accountsWithReadPermission) := by
  simp only [updateChannelPermsForAccount]
  repeat' split
  all_goals simp_all

theorem computeChannelPermissions_congr (accountID : Nat) (guild : CachedGuild)
    (ch1 ch2 : CachedChannelPerms) (accountData : GuildAccountData)
    (h : ch1.permissionOverwrites = ch2.permissionOverwrites) :
    computeChannelPermissions accountID guild ch1 accountData =
      computeChannelPermissions accountID guild ch2 accountData := by
  unfold computeChannelPermissions
  rw [h]

theorem updateChannelPermsForAccount_read_self (guild : CachedGuild)
    (channel : CachedChannelPerms) (accountID : Nat) (accountData : GuildAccountData) :
    (accountID ∈ (updateChannelPermsForAccount guild channel accountID
        accountData).accountsWithReadPermission ↔
      hasChannelPermissions (computeChannelPermissions accountID guild channel accountData)
        READ_MESSAGE_HISTORY = true) := by
  rw [updateChannelPermsForAccount_read_eq]
  by_cases hr : hasChannelPermissions
      (computeChannelPermissions accountID guild channel accountData) READ_MESSAGE_HISTORY = true
  · rw [if_pos hr]
    simp [mem_setAdd_self, hr]
  · rw [if_neg hr]
    by_cases hm : accountID ∈ channel.accountsWithReadPermission
    · rw [if_pos hm]
      simp [not_mem_setDelete_self, hr]
    · rw [if_neg hm]
      simp [hm, hr]

theorem updateChannelPermsForAccount_read_other (guild : CachedGuild)
    (channel : CachedChannelPerms) (accountID : Nat) (accountData : GuildAccountData)
    (b : Nat) (hb : b ≠ accountID) :
    (b ∈ (updateChannelPermsForAccount guild channel accountID
        accountData).accountsWithReadPermission ↔
      b ∈ channel.accountsWithReadPermission) := by
  rw [updateChannelPermsForAccount_read_eq]
  split
  · exact mem_setAdd_of_ne _ _ _ hb
  · split
    · exact mem_setDelete_of_ne _ _ _ hb
    · exact Iff.rfl

theorem updateGuildChannelPermissions_aux (guild : CachedGuild)
    (l : List (Nat × GuildAccountData)) (channel : CachedChannelPerms) (a : Nat) :
    ((∀ p ∈ l, p.1 ≠ a) →
      ((a ∈ (l.foldl (fun ch p => updateChannelPermsForAccount guild ch p.1 p.2)
          channel).accountsWithReadPermission ↔
        a ∈ channel.accountsWithReadPermission) ∧
      (l.foldl (fun ch p => updateChannelPermsForAccount guild ch p.1 p.2)
          channel).permissionOverwrites = channel.permissionOverwrites)) := by
  induction l generalizing channel with
  | nil => intro _; exact ⟨Iff.rfl, rfl⟩
  | cons p rest ih =>
    intro h
    have hp : p.1 ≠ a := h p (List.mem_cons_self p rest)
    have hrest := ih (updateChannelPermsForAccount guild channel p.1 p.2)
      (fun q hq => h q (List.mem_cons_of_mem p hq))
    rw [List.foldl_cons]
    refine ⟨?_, ?_⟩
    · rw [hrest.1, updateChannelPermsForAccount_read_other guild channel p.1 p.2 a
        (fun hc => hp hc.symm)]
    · rw [hrest.2, updateChannelPermsForAccount_overwrites]

theorem updateGuildChannelPermissions_read_aux (guild : CachedGuild)
    (l : List (Nat × GuildAccountData)) (channel : CachedChannelPerms) (a : Nat)
    (ad : GuildAccountData) (hmem : alookup a l = some ad)
    (hnodup : (l.map Prod.fst).Nodup) :
    (a ∈ (l.foldl (fun ch p => updateChannelPermsForAccount guild ch p.1 p.2)
        channel).accountsWithReadPermission ↔
      hasChannelPermissions (computeChannelPermissions a guild channel ad)
        READ_MESSAGE_HISTORY = true) := by
  induction l generalizing channel with
  | nil => exact absurd hmem (by simp [alookup])
  | cons p rest ih =>
    rw [alookup] at hmem
    rw [List.map_cons, List.nodup_cons] at hnodup
    rw [List.foldl_cons]
    by_cases hp : p.1 = a
    · rw [if_pos hp] at hmem
      have had : p.2 = ad := by injection hmem
      have hrest : ∀ q ∈ rest, q.1 ≠ a := by
        intro q hq hqa
        have hqm : q.1 ∈ List.map Prod.fst rest := List.mem_map_of_mem Prod.fst hq
        rw [hqa, ← hp] at hqm
        exact hnodup.1 hqm
      have haux := updateGuildChannelPermissions_aux guild rest
        (updateChannelPermsForAccount guild channel p.1 p.2) a hrest
      rw [haux.1, hp, had]
      exact updateChannelPermsForAccount_read_self guild channel a ad
    · rw [if_neg hp] at hmem
      have hupd := ih (updateChannelPermsForAccount guild channel p.1 p.2) hmem hnodup.2
      rw [hupd, computeChannelPermissions_congr a guild
        (updateChannelPermsForAccount guild channel p.1 p.2) channel ad
        (updateChannelPermsForAccount_overwrites guild channel p.1 p.2)]

theorem and_or_two_pow_eq_iff (p a b : Nat) :
    p &&& (2 ^ a ||| 2 ^ b) = 2 ^ a ||| 2 ^ b ↔ (p.testBit a ∧ p.testBit b) := by
  constructor
  · intro h
    constructor
    · have ha := congrArg (fun x => Nat.testBit x a) h
      simpa [Nat.testBit_and, Nat.testBit_or, Nat.testBit_two_pow] using ha
    · have hb := congrArg (fun x => Nat.testBit x b) h
      simpa [Nat.testBit_and, Nat.testBit_or, Nat.testBit_two_pow] using hb
  · rintro ⟨ha, hb⟩
    apply Nat.eq_of_testBit_eq
    intro i
    simp only [Nat.testBit_and, Nat.testBit_or, Nat.testBit_two_pow]
    by_cases hia : a = i
    · subst hia
      simp [ha]
    · by_cases hib : b = i
      · subst hib
        simp [hb]
      · simp [hia, hib]

theorem hasRead_iff_bits (p : Nat) :
    hasChannelPermissions p READ_MESSAGE_HISTORY = true ↔
      (p.testBit 10 ∧ p.testBit 16) := by
  unfold hasChannelPermissions READ_MESSAGE_HISTORY VIEW_CHANNEL
  rw [beq_iff_eq, and_or_two_pow_eq_iff p 16 10]
  tauto

/-- C2: after `updateGuildChannelPermissions` runs, an account of the channel's
guild is a member of the channel's `accountsWithReadPermission` set iff its
computed channel permissions have both the `VIEW_CHANNEL` bit (bit 10) and the
`READ_MESSAGE_HISTORY` bit (bit 16) set.  The `accountData` keys are distinct,
as they are for a JS `Map`. -/
theorem updateGuildChannelPermissions_read_set_iff (guild : CachedGuild)
    (channel : CachedChannelPerms) (a : Nat) (ad : GuildAccountData)
    (hmem : alookup a guild.accountData = some ad)
    (hnodup : (guild.accountData.map Prod.fst).Nodup) :
    (a ∈ (updateGuildChannelPermissions guild channel).accountsWithReadPermission ↔
      ((computeChannelPermissions a guild channel ad).testBit 10 ∧
        (computeChannelPermissions a guild channel ad).testBit 16)) := by
  rw [← hasRead_iff_bits]
  unfold updateGuildChannelPermissions
  exact updateGuildChannelPermissions_read_aux guild guild.accountData channel a ad hmem hnodup

/-- Witness for `updateGuildChannelPermissions_read_set_iff`: a guild with one
account (id 10) whose guild permissions are `VIEW_CHANNEL ||| READ_MESSAGE_HISTORY`
and a channel with no overwrites. -/
theorem updateGuildChannelPermissions_read_set_iff_witness :
    (alookup 10 (CachedGuild.mk 1 99 [(10, ⟨[], 2 ^ 10 + 2 ^ 16⟩)]).accountData =
      some ⟨[], 2 ^ 10 + 2 ^ 16⟩) ∧
    (10 ∈ (updateGuildChannelPermissions ⟨1, 99, [(10, ⟨[], 2 ^ 10 + 2 ^ 16⟩)]⟩
        ⟨[], [], []⟩).accountsWithReadPermission ↔
      ((computeChannelPermissions 10 ⟨1, 99, [(10, ⟨[], 2 ^ 10 + 2 ^ 16⟩)]⟩
          ⟨[], [], []⟩ ⟨[], 2 ^ 10 + 2 ^ 16⟩).testBit 10 ∧
        (computeChannelPermissions 10 ⟨1, 99, [(10, ⟨[], 2 ^ 10 + 2 ^ 16⟩)]⟩
          ⟨[], [], []⟩ ⟨[], 2 ^ 10 + 2 ^ 16⟩).testBit 16)) := by
  refine ⟨by decide, ?_⟩
  exact updateGuildChannelPermissions_read_set_iff ⟨1, 99, [(10, ⟨[], 2 ^ 10 + 2 ^ 16⟩)]⟩
    ⟨[], [], []⟩ 10 ⟨[], 2 ^ 10 + 2 ^ 16⟩ (by decide) (by decide)

/-! ## Message-sync registries (src/archiver/cache.ts)

Every account keeps `ongoingMessageSyncs` and `ongoingPrivateThreadMessageSyncs`,
maps from the parent channel to maps from the channel-or-thread id to the sync
operation.  `syncMessages` registers itself synchronously in one of the two
(private threads go to the private registry, cache.ts lines 267-278), and
`syncMessagesIfNotSyncing` spawns a sync unless some account of the parent
channel's guild already has the id in its `ongoingMessageSyncs`.  Registries are
embedded as maps from the parent id to the list of registered ids. -/

/-- The two per-account registries of ongoing message syncs. -/
structure AccountReg where
  ongoingMessageSyncs : List (Nat × List Nat)
  ongoingPrivateThreadMessageSyncs : List (Nat × List Nat)
deriving DecidableEq, Repr

/-- A channel or thread as `syncMessages` sees it: its id, the id of the parent
channel when it is a thread (`channel.parent`), and the thread privacy flag. -/
structure ChannelRef where
  id : Nat
  parentID : Option Nat
  isPrivate : Bool
deriving DecidableEq, Repr

/-- The parent channel used as a registry key: `channel.parent ?? channel`. -/
def parentKey (ch : ChannelRef) : Nat :=
  ch.parentID.getD ch.id

/-- Register an id in a registry (`ongoingChannelSyncs.set(channel.id, sync)`,
creating the inner map when absent). -/
def addToRegistry (reg : List (Nat × List Nat)) (parent id : Nat) : List (Nat × List Nat) :=
  match alookup parent reg with
  | some ids => areplace parent (setAdd id ids) reg
  | none => reg ++ [(parent, [id])]

/-- The registration step at the top of `syncMessages` (cache.ts lines 267-278):
the sync goes into `ongoingPrivateThreadMessageSyncs` when the channel is a
private thread (`channel.parent !== null && channel.private`) and into
`ongoingMessageSyncs` otherwise. -/
def registerMessageSync (a : AccountReg) (ch : ChannelRef) : AccountReg :=
  if ch.parentID.isSome ∧ ch.isPrivate then
    { a with ongoingPrivateThreadMessageSyncs :=
        addToRegistry a.ongoingPrivateThreadMessageSyncs (parentKey ch) ch.id }
  else
    { a with ongoingMessageSyncs :=
        addToRegistry a.ongoingMessageSyncs (parentKey ch) ch.id }

/-- Modify the i-th element of a list in place. -/
def modifyAt {α : Type} (f : α → α) : Nat → List α → List α
  | _, [] => []
  | 0, x :: xs => f x :: xs
  | n + 1, x :: xs => x :: modifyAt f n xs

/-- The orchestrator state relevant to message-sync spawning: the per-account
registries, plus a ledger with one `(parent, id)` entry for each *running*
`syncMessages` invocation (each call creates a new concurrent operation with its
own abort controller; the inner registry is a JS `Map`, so a duplicate spawn
overwrites the registry entry but both operations keep running). -/
structure SyncState where
  accounts : List AccountReg
  running : List (Nat × Nat)
deriving DecidableEq, Repr

/-- Calling `syncMessages` on account `chosen`: the new operation starts running
and registers itself synchronously (cache.ts lines 264-279). -/
def spawnSyncMessages (st : SyncState) (chosen : Nat) (ch : ChannelRef) : SyncState :=
  { accounts := modifyAt (fun a => registerMessageSync a ch) chosen st.accounts,
    running := st.running ++ [(parentKey ch, ch.id)] }

/-- The duplicate scan of `syncMessagesIfNotSyncing` (cache.ts lines 481-485):
`account.ongoingMessageSyncs.get(parentChannel)?.has(channel.id)` over every
account of the parent channel's guild. -/
def isSyncingScan (accounts : List AccountReg) (parent chID : Nat) : Bool :=
  accounts.any fun a => ((alookup parent a.ongoingMessageSyncs).getD []).contains chID

/-- `syncMessagesIfNotSyncing`: when the scan finds the id, resolve without
spawning; otherwise call `syncMessages` on the chosen account. -/
def syncMessagesIfNotSyncing (st : SyncState) (chosen : Nat) (ch : ChannelRef) : SyncState :=
  if isSyncingScan st.accounts (parentKey ch) ch.id then st
  else spawnSyncMessages st chosen ch

/-- How many message-sync operations are running for `(parent, chID)`. -/
def countMessageSyncs (st : SyncState) (parent chID : Nat) : Nat :=
  st.running.count (parent, chID)

/-- C3, counterexample: the claim says the orchestrator's pre-spawn scan covers
the private-thread message-sync registries (and the syncs spawned by
archived-thread enumeration), so at most one message-sync operation ever exists
per `(parent channel, id)`.  In the source, `syncMessagesIfNotSyncing` (like the
`THREAD_LIST_SYNC` handler) scans only `ongoingMessageSyncs`; with one account
already running a private-thread message sync for thread 7 under parent 5
(registered in `ongoingPrivateThreadMessageSyncs`), a second spawn request for
that thread passes the scan and spawns, leaving two concurrent sync operations
for `(5, 7)`.  (`syncAllArchivedThreads` even calls `syncMessages` for every
listed thread with no scan at all, cache.ts line 558.) -/
theorem syncMessagesIfNotSyncing_duplicate_counterexample :
    countMessageSyncs ⟨[⟨[], [(5, [7])]⟩], [(5, 7)]⟩ 5 7 = 1 ∧
    countMessageSyncs
      (syncMessagesIfNotSyncing ⟨[⟨[], [(5, [7])]⟩], [(5, 7)]⟩ 0 ⟨7, some 5, true⟩) 5 7 = 2 := by
  decide

/-- C3, amended: the pre-spawn scan of `syncMessagesIfNotSyncing` covers only the
plain `ongoingMessageSyncs` registries of the accounts of the parent channel's
guild, so at-most-one is preserved exactly for operations that are registered
there: when the id is found, no new sync is spawned, and under the registration
invariant "a running operation for this `(parent, id)` is visible to the scan"
(which holds for channels and non-private threads, since `syncMessages` registers
them in `ongoingMessageSyncs` before its first suspension point) a spawn request
keeps the number of running operations for the tuple at most one.  Private-thread
message syncs and the syncs spawned by archived-thread enumeration are not
covered by any scan. -/
theorem syncMessagesIfNotSyncing_plain_registry_guard (st : SyncState)
    (chosen : Nat) (ch : ChannelRef)
    (hreg : (parentKey ch, ch.id) ∈ st.running →
      isSyncingScan st.accounts (parentKey ch) ch.id = true)
    (hbefore : countMessageSyncs st (parentKey ch) ch.id ≤ 1) :
    (isSyncingScan st.accounts (parentKey ch) ch.id = true →
      syncMessagesIfNotSyncing st chosen ch = st) ∧
    countMessageSyncs (syncMessagesIfNotSyncing st chosen ch) (parentKey ch) ch.id ≤ 1 := by
  constructor
  · intro hscan
    unfold syncMessagesIfNotSyncing
    rw [if_pos hscan]
  · unfold syncMessagesIfNotSyncing
    by_cases hscan : isSyncingScan st.accounts (parentKey ch) ch.id = true
    · rw [if_pos hscan]
      exact hbefore
    · rw [if_neg hscan]
      have hnotrun : (parentKey ch, ch.id) ∉ st.running := fun hmem => hscan (hreg hmem)
      have hzero : countMessageSyncs st (parentKey ch) ch.id = 0 :=
        List.count_eq_zero.mpr hnotrun
      unfold countMessageSyncs at hzero ⊢
      unfold spawnSyncMessages
      rw [List.count_append]
      rw [hzero]
      simp

/-- Witness for `syncMessagesIfNotSyncing_plain_registry_guard`: one account
already running a sync for channel 7 (a top-level channel, so parent 7) that is
registered in its plain registry; the scan finds it and nothing is spawned. -/
theorem syncMessagesIfNotSyncing_plain_registry_guard_witness :
    (((parentKey ⟨7, none, false⟩, 7) ∈ (SyncState.mk [⟨[(7, [7])], []⟩] [(7, 7)]).running →
        isSyncingScan [⟨[(7, [7])], []⟩] (parentKey ⟨7, none, false⟩) 7 = true) ∧
      countMessageSyncs ⟨[⟨[(7, [7])], []⟩], [(7, 7)]⟩ (parentKey ⟨7, none, false⟩) 7 ≤ 1) ∧
    (isSyncingScan [⟨[(7, [7])], []⟩] (parentKey ⟨7, none, false⟩) 7 = true →
      syncMessagesIfNotSyncing ⟨[⟨[(7, [7])], []⟩], [(7, 7)]⟩ 0 ⟨7, none, false⟩ =
        ⟨[⟨[(7, [7])], []⟩], [(7, 7)]⟩) ∧
    countMessageSyncs
      (syncMessagesIfNotSyncing ⟨[⟨[(7, [7])], []⟩], [(7, 7)]⟩ 0 ⟨7, none, false⟩)
      (parentKey ⟨7, none, false⟩) 7 ≤ 1 := by
  refine ⟨⟨by decide, by decide⟩, ?_⟩
  exact syncMessagesIfNotSyncing_plain_registry_guard ⟨[⟨[(7, [7])], []⟩], [(7, 7)]⟩ 0
    ⟨7, none, false⟩ (by decide) (by decide)

/-! ## Message backfill (src/archiver/cache.ts, `syncMessages`)

`syncMessages` first asks the database for the greatest stored message id of
the channel (`GET_LAST_MESSAGE_ID`) and skips the backfill when it is at least
the cached `last_message_id`.  Otherwise it repeatedly requests
`/channels/{id}/messages?limit=100&after={messageID}`.  Each page arrives
newest-first; the loop iterates it from the last index to the first, batching
reactionless messages (`flushMessagesWithoutReactions`) and issuing every
message with reactions in its own transaction, so that `ADD_MESSAGE_SNAPSHOT`
requests are issued oldest-to-newest.  The REST layer is abstracted as a
function from the `after` cursor to the page, and the database's answer to the
snapshot add of a message as a function from the message id to the
`AddSnapshotResult`; responses are taken to be successful (the 403/404 hang,
other non-ok statuses and aborts end the loop without further writes).  The
`fuel` argument bounds the number of loop iterations. -/

/-- A message as the backfill loop sees it: its id and its number of reaction
entries. -/
structure SyncMsg where
  id : Nat
  reactions : Nat
deriving DecidableEq, Repr

/-- The check `!options["no-reactions"] && message.reactions !== undefined &&
message.reactions.length !== 0` that routes a message through the
per-message-with-reactions transaction. -/
def hasArchivableReactions (noReactions : Bool) (m : SyncMsg) : Bool :=
  !noReactions && m.reactions != 0

/-- The per-page insertion loop (`for (i = messages.length - 1; i >= 0; i--)`)
with the `flushMessagesWithoutReactions` buffer.  `rest` is the remainder of the
page in traversal order (last index first, i.e. oldest first); `pending` holds
the buffered reactionless messages in buffer order.  A message with reactions
flushes the buffer and is issued on its own; the final flush runs after the
loop.  Returns the messages in the order their `ADD_MESSAGE_SNAPSHOT` requests
are issued. -/
def pageAddOrderAux (noReactions : Bool) (pending : List SyncMsg) :
    List SyncMsg → List SyncMsg
  | [] => pending
  | m :: rest =>
    if hasArchivableReactions noReactions m then
      pending ++ m :: pageAddOrderAux noReactions [] rest
    else
      pageAddOrderAux noReactions (pending ++ [m]) rest

/-- The `ADD_MESSAGE_SNAPSHOT` order for one page (`page` newest-first, as the
REST API returns it; the loop traverses it in reverse). -/
def pageAddOrder (noReactions : Bool) (page : List SyncMsg) : List SyncMsg :=
  pageAddOrderAux noReactions [] page.reverse

theorem pageAddOrderAux_eq (noReactions : Bool) (pending rest : List SyncMsg) :
    pageAddOrderAux noReactions pending rest = pending ++ rest := by
  induction rest generalizing pending with
  | nil => simp [pageAddOrderAux]
  | cons m rest ih =>
    unfold pageAddOrderAux
    split
    · rw [ih]
      simp
    · rw [ih]
      simp

theorem pageAddOrder_eq_reverse (noReactions : Bool) (page : List SyncMsg) :
    pageAddOrder noReactions page = page.reverse := by
  unfold pageAddOrder
  rw [pageAddOrderAux_eq]
  rfl

/-- One run of the pagination loop of `syncMessages`:

* `fetch` maps the `after` cursor to the returned page (newest-first);
* `addRes` is the `AddSnapshotResult` the database returns for adding a message;
* a page is processed by issuing its adds (`pageAddOrder`), then the loop stops
  when the awaited result of the *last* issued add (`lastMessageAddPromise`) is
  not `ADDED_FIRST_SNAPSHOT` (`done`), or when the page has fewer than 100
  messages; otherwise it continues from `messageID = messages[0].id`.

Returns the requested cursors, all issued message ids in order, and whether the
loop exited by itself (`false` when the fuel ran out). -/
structure SyncRun where
  cursors : List Nat
  adds : List Nat
  finished : Bool
deriving DecidableEq, Repr

/-- The `done` check of the loop: `await lastMessageAddPromise !==
ADDED_FIRST_SNAPSHOT`, where `lastMessageAddPromise` is the result of the last
issued `ADD_MESSAGE_SNAPSHOT`; with no message there is no such promise and no
`done` exit. -/
def syncLoopDone (addRes : Nat → AddSnapshotResult) (adds : List Nat) : Bool :=
  match adds.getLast? with
  | some lastID => addRes lastID != AddSnapshotResult.ADDED_FIRST_SNAPSHOT
  | none => false

def messageSyncLoop (fetch : Nat → List SyncMsg) (addRes : Nat → AddSnapshotResult)
    (noReactions : Bool) : Nat → Nat → SyncRun
  | _, 0 => ⟨[], [], false⟩
  | cursor, fuel + 1 =>
    if syncLoopDone addRes ((pageAddOrder noReactions (fetch cursor)).map SyncMsg.id) = true
        ∨ (fetch cursor).length < 100 then
      ⟨[cursor], (pageAddOrder noReactions (fetch cursor)).map SyncMsg.id, true⟩
    else
      ⟨cursor :: (messageSyncLoop fetch addRes noReactions
          (((fetch cursor).head?.map SyncMsg.id).getD cursor) fuel).cursors,
        (pageAddOrder noReactions (fetch cursor)).map SyncMsg.id ++
          (messageSyncLoop fetch addRes noReactions
            (((fetch cursor).head?.map SyncMsg.id).getD cursor) fuel).adds,
        (messageSyncLoop fetch addRes noReactions
          (((fetch cursor).head?.map SyncMsg.id).getD cursor) fuel).finished⟩

/-- The skip check of `syncMessages` (cache.ts line 283): the backfill runs iff
`lastMessageID == null || lastStoredMessageID == null ||
lastStoredMessageID < BigInt(lastMessageID)`. -/
def shouldSyncMessages : Option Nat → Option Nat → Bool
  | none, _ => true
  | some _, none => true
  | some lastMessageID, some lastStoredMessageID => lastStoredMessageID < lastMessageID

/-- A whole `syncMessages` backfill for one channel: query the stored maximum,
skip when it is at least the cached `last_message_id`, otherwise run the loop
from `messageID = lastStoredMessageID?.toString() ?? "0"`. -/
def syncMessagesRun (lastMessageID lastStoredMessageID : Option Nat)
    (fetch : Nat → List SyncMsg) (addRes : Nat → AddSnapshotResult)
    (noReactions : Bool) (fuel : Nat) : SyncRun :=
  if shouldSyncMessages lastMessageID lastStoredMessageID then
    messageSyncLoop fetch addRes noReactions (lastStoredMessageID.getD 0) fuel
  else ⟨[], [], true⟩

theorem pageAdds_eq (noReactions : Bool) (page : List SyncMsg) :
    (pageAddOrder noReactions page).map SyncMsg.id = (page.map SyncMsg.id).reverse := by
  rw [pageAddOrder_eq_reverse, List.map_reverse]

theorem pageAdds_getLast? (noReactions : Bool) (page : List SyncMsg) :
    ((pageAddOrder noReactions page).map SyncMsg.id).getLast? =
      page.head?.map SyncMsg.id := by
  rw [pageAdds_eq, List.getLast?_reverse, List.head?_map]

theorem messageSyncLoop_adds_ascending (fetch : Nat → List SyncMsg)
    (addRes : Nat → AddSnapshotResult) (noReactions : Bool)
    (hdesc : ∀ c, ((fetch c).map SyncMsg.id).Chain' (fun a b => b < a))
    (hgt : ∀ c, ∀ m ∈ fetch c, c < m.id) :
    ∀ fuel cursor,
      ((messageSyncLoop fetch addRes noReactions cursor fuel).adds.Chain' (· < ·) ∧
        ∀ x ∈ (messageSyncLoop fetch addRes noReactions cursor fuel).adds, cursor < x) := by
  intro fuel
  induction fuel with
  | zero =>
    intro cursor
    constructor
    · simp [messageSyncLoop]
    · simp [messageSyncLoop]
  | succ n ih =>
    intro cursor
    have hpage : ((pageAddOrder noReactions (fetch cursor)).map SyncMsg.id).Chain' (· < ·) := by
      rw [pageAdds_eq]
      rw [List.chain'_reverse]
      exact hdesc cursor
    have hmem : ∀ x ∈ (pageAddOrder noReactions (fetch cursor)).map SyncMsg.id, cursor < x := by
      intro x hx
      rw [pageAdds_eq, List.mem_reverse, List.mem_map] at hx
      obtain ⟨m, hm, hmx⟩ := hx
      rw [← hmx]
      exact hgt cursor m hm
    rw [messageSyncLoop]
    split
    · exact ⟨hpage, hmem⟩
    · rename_i hcond
      have hlen : ¬ (fetch cursor).length < 100 := fun h => hcond (Or.inr h)
      have hne : fetch cursor ≠ [] := by
        intro h
        rw [h] at hlen
        exact hlen (by simp)
      obtain ⟨h0, rest0, hfc⟩ := List.exists_cons_of_ne_nil hne
      have hhead : (fetch cursor).head? = some h0 := by rw [hfc]; rfl
      have hcursor2 : (((fetch cursor).head?.map SyncMsg.id).getD cursor) = h0.id := by
        rw [hhead]; rfl
      have hnext := ih (((fetch cursor).head?.map SyncMsg.id).getD cursor)
      constructor
      · simp only
        apply List.Chain'.append hpage hnext.1
        intro x hx y hy
        rw [pageAdds_getLast?, hhead] at hx
        have hxid : x = h0.id := by
          simp only [Option.map_some'] at hx
          exact (Option.mem_some_iff.mp hx).symm
        have hycursor : (((fetch cursor).head?.map SyncMsg.id).getD cursor) < y :=
          hnext.2 y (List.mem_of_mem_head? hy)
        rw [hxid, ← hcursor2]
        exact hycursor
      · simp only
        intro x hx
        rw [List.mem_append] at hx
        cases hx with
        | inl hx => exact hmem x hx
        | inr hx =>
          have h1 : (((fetch cursor).head?.map SyncMsg.id).getD cursor) < x := hnext.2 x hx
          have h2 : cursor < h0.id := hgt cursor h0 (by rw [hfc]; exact List.mem_cons_self h0 rest0)
          rw [hcursor2] at h1
          omega

/-- C1: in every backfill run of `syncMessages`, the `ADD_MESSAGE_SNAPSHOT`
requests are issued in strictly ascending message-id order across all pages.
Each page is assumed to satisfy the REST contract of
`messages?after=cursor`: it is sorted newest-first (strictly descending ids)
and contains only messages with ids greater than the cursor. -/
theorem syncMessages_adds_strictly_ascending (lastMessageID lastStoredMessageID : Option Nat)
    (fetch : Nat → List SyncMsg) (addRes : Nat → AddSnapshotResult)
    (noReactions : Bool) (fuel : Nat)
    (hdesc : ∀ c, ((fetch c).map SyncMsg.id).Chain' (fun a b => b < a))
    (hgt : ∀ c, ∀ m ∈ fetch c, c < m.id) :
    ((syncMessagesRun lastMessageID lastStoredMessageID fetch addRes noReactions
        fuel).adds.Chain' (· < ·)) := by
  unfold syncMessagesRun
  split
  · exact (messageSyncLoop_adds_ascending fetch addRes noReactions hdesc hgt fuel
      (lastStoredMessageID.getD 0)).1
  · exact List.chain'_nil

/-- Witness for `syncMessages_adds_strictly_ascending` at a run whose single
page holds ids 2 and 1 (newest first), message 2 carrying one reaction. -/
theorem syncMessages_adds_strictly_ascending_witness :
    ((syncMessagesRun (some 5) none
        (fun c => if c = 0 then [⟨2, 1⟩, ⟨1, 0⟩] else [])
        (fun _ => AddSnapshotResult.ADDED_FIRST_SNAPSHOT) false 3).adds.Chain' (· < ·)) := by
  apply syncMessages_adds_strictly_ascending
  · intro c
    by_cases h : c = 0 <;> simp [h]
  · intro c m hm
    by_cases h : c = 0
    · rw [h] at hm ⊢
      simp only [if_pos rfl] at hm
      fin_cases hm <;> decide
    · rw [if_neg h] at hm
      exact absurd hm (by simp)

/-- The three stop conditions the claim names for the pagination loop of
`syncMessages`: an empty page, a page shorter than the limit of 100, or a page
whose newest message (the last one inserted, `messages[0]`) comes back from
`ADD_MESSAGE_SNAPSHOT` with a result other than `ADDED_FIRST_SNAPSHOT`. -/
def pageStopsLoop (addRes : Nat → AddSnapshotResult) (page : List SyncMsg) : Prop :=
  page = [] ∨ page.length < 100 ∨
    (∃ m, page.head? = some m ∧ addRes m.id ≠ AddSnapshotResult.ADDED_FIRST_SNAPSHOT)

theorem syncLoop_stop_iff (addRes : Nat → AddSnapshotResult) (noReactions : Bool)
    (page : List SyncMsg) :
    (syncLoopDone addRes ((pageAddOrder noReactions page).map SyncMsg.id) = true ∨
        page.length < 100) ↔ pageStopsLoop addRes page := by
  unfold syncLoopDone pageStopsLoop
  rw [pageAdds_getLast?]
  cases page with
  | nil => simp
  | cons m rest =>
    simp only [List.head?_cons, Option.map_some, List.length_cons]
    constructor
    · intro h
      cases h with
      | inl h =>
        refine Or.inr (Or.inr ⟨m, rfl, ?_⟩)
        simpa using h
      | inr h => exact Or.inr (Or.inl h)
    · intro h
      rcases h with h | h | ⟨m2, hm2, hres⟩
      · exact absurd h (by simp)
      · exact Or.inr h
      · refine Or.inl ?_
        have hmm : m = m2 := by injection hm2
        rw [← hmm] at hres
        simpa using hres

theorem messageSyncLoop_control (fetch : Nat → List SyncMsg)
    (addRes : Nat → AddSnapshotResult) (noReactions : Bool) :
    ∀ fuel cursor,
      ((fuel ≠ 0 →
        (messageSyncLoop fetch addRes noReactions cursor fuel).cursors.head? = some cursor) ∧
      (∀ c ∈ (messageSyncLoop fetch addRes noReactions cursor fuel).cursors.dropLast,
        ¬ pageStopsLoop addRes (fetch c)) ∧
      ((messageSyncLoop fetch addRes noReactions cursor fuel).finished = true →
        (messageSyncLoop fetch addRes noReactions cursor fuel).cursors ≠ []) ∧
      ((messageSyncLoop fetch addRes noReactions cursor fuel).finished = true →
        ∀ c, (messageSyncLoop fetch addRes noReactions cursor fuel).cursors.getLast? = some c →
          pageStopsLoop addRes (fetch c))) := by
  intro fuel
  induction fuel with
  | zero =>
    intro cursor
    refine ⟨fun h => absurd rfl h, ?_, ?_, ?_⟩
    · simp [messageSyncLoop]
    · simp [messageSyncLoop]
    · simp [messageSyncLoop]
  | succ n ih =>
    intro cursor
    rw [messageSyncLoop]
    split
    · rename_i hcond
      have hstop : pageStopsLoop addRes (fetch cursor) :=
        (syncLoop_stop_iff addRes noReactions (fetch cursor)).mp hcond
      refine ⟨fun _ => rfl, ?_, fun _ => by simp, ?_⟩
      · simp
      · intro _ c hc
        have : c = cursor := by
          simp only [List.getLast?_singleton] at hc
          injection hc
          omega
        rw [this]
        exact hstop
    · rename_i hcond
      have hnostop : ¬ pageStopsLoop addRes (fetch cursor) := fun h =>
        hcond ((syncLoop_stop_iff addRes noReactions (fetch cursor)).mpr h)
      have hnext := ih (((fetch cursor).head?.map SyncMsg.id).getD cursor)
      refine ⟨fun _ => rfl, ?_, fun _ => by simp, ?_⟩
      · intro c hc
        simp only at hc
        cases hrec : (messageSyncLoop fetch addRes noReactions
            (((fetch cursor).head?.map SyncMsg.id).getD cursor) n).cursors with
        | nil =>
          rw [hrec] at hc
          exact absurd hc (by simp)
        | cons d ds =>
          rw [hrec, List.dropLast_cons₂] at hc
          cases hc with
          | head => exact hnostop
          | tail _ hc =>
            have := hnext.2.1 c
            rw [hrec] at this
            exact this hc
      · intro hfin c hc
        simp only at hfin hc ⊢
        have hne := hnext.2.2.1 hfin
        cases hrec : (messageSyncLoop fetch addRes noReactions
            (((fetch cursor).head?.map SyncMsg.id).getD cursor) n).cursors with
        | nil => exact absurd hrec hne
        | cons d ds =>
          rw [hrec, List.getLast?_cons_cons] at hc
          have := hnext.2.2.2 hfin c
          rw [hrec] at this
          exact this hc

/-- C5: control flow of one `syncMessages` backfill.  (1) The backfill performs
no page fetch exactly when both the cached `last_message_id` and the stored
maximum exist and the stored maximum is at least the cached value.  (2)
Otherwise the first request uses `after = lastStoredMessageID ?? 0` (with
`limit=100`, which the model reflects in the page-shorter-than-100 stop check).
(3) Every page except the last one the loop fetched stops nothing: it has 100
messages and the add of its newest message returned `ADDED_FIRST_SNAPSHOT`; and
when the loop exited by itself, the final fetched page is empty, shorter than
100, or its newest message's add result is not `ADDED_FIRST_SNAPSHOT`. -/
theorem syncMessages_pagination_control (lastMessageID lastStoredMessageID : Option Nat)
    (fetch : Nat → List SyncMsg) (addRes : Nat → AddSnapshotResult)
    (noReactions : Bool) (fuel : Nat) (hfuel : fuel ≠ 0) :
    ((shouldSyncMessages lastMessageID lastStoredMessageID = false ↔
      (∃ l s, lastMessageID = some l ∧ lastStoredMessageID = some s ∧ l ≤ s)) ∧
    (shouldSyncMessages lastMessageID lastStoredMessageID = false →
      (syncMessagesRun lastMessageID lastStoredMessageID fetch addRes noReactions
        fuel).cursors = []) ∧
    (shouldSyncMessages lastMessageID lastStoredMessageID = true →
      (syncMessagesRun lastMessageID lastStoredMessageID fetch addRes noReactions
        fuel).cursors.head? = some (lastStoredMessageID.getD 0)) ∧
    (∀ c ∈ (syncMessagesRun lastMessageID lastStoredMessageID fetch addRes noReactions
        fuel).cursors.dropLast, ¬ pageStopsLoop addRes (fetch c)) ∧
    ((syncMessagesRun lastMessageID lastStoredMessageID fetch addRes noReactions
        fuel).finished = true →
      ∀ c, (syncMessagesRun lastMessageID lastStoredMessageID fetch addRes noReactions
          fuel).cursors.getLast? = some c →
        pageStopsLoop addRes (fetch c))) := by
  have hloop := messageSyncLoop_control fetch addRes noReactions fuel
    (lastStoredMessageID.getD 0)
  refine ⟨?_, ?_, ?_, ?_, ?_⟩
  · cases lastMessageID <;> cases lastStoredMessageID <;>
      simp [shouldSyncMessages, Nat.not_lt]
  · intro h
    unfold syncMessagesRun
    rw [if_neg (by rw [h]; exact Bool.false_ne_true)]
  · intro h
    unfold syncMessagesRun
    rw [if_pos h]
    exact hloop.1 hfuel
  · intro c hc
    unfold syncMessagesRun at hc
    by_cases h : shouldSyncMessages lastMessageID lastStoredMessageID = true
    · rw [if_pos h] at hc
      exact hloop.2.1 c hc
    · rw [if_neg h] at hc
      exact absurd hc (by simp)
  · intro hfin c hc
    unfold syncMessagesRun at hfin hc
    by_cases h : shouldSyncMessages lastMessageID lastStoredMessageID = true
    · rw [if_pos h] at hfin hc
      exact hloop.2.2.2 hfin c hc
    · rw [if_neg h] at hc
      exact absurd hc (by simp)

/-- Witness for `syncMessages_pagination_control` at
`lastMessageID = some 5`, `lastStoredMessageID = some 3` (so the backfill runs,
starting at `after = 3`) with an API that returns no messages. -/
theorem syncMessages_pagination_control_witness :
    ((shouldSyncMessages (some 5) (some 3) = false ↔
      (∃ l s, (some 5 : Option Nat) = some l ∧ (some 3 : Option Nat) = some s ∧ l ≤ s)) ∧
    (shouldSyncMessages (some 5) (some 3) = false →
      (syncMessagesRun (some 5) (some 3) (fun _ => [])
        (fun _ => AddSnapshotResult.ADDED_FIRST_SNAPSHOT) false 1).cursors = []) ∧
    (shouldSyncMessages (some 5) (some 3) = true →
      (syncMessagesRun (some 5) (some 3) (fun _ => [])
        (fun _ => AddSnapshotResult.ADDED_FIRST_SNAPSHOT) false 1).cursors.head? =
        some ((some 3 : Option Nat).getD 0)) ∧
    (∀ c ∈ (syncMessagesRun (some 5) (some 3) (fun _ => [])
        (fun _ => AddSnapshotResult.ADDED_FIRST_SNAPSHOT) false 1).cursors.dropLast,
      ¬ pageStopsLoop (fun _ => AddSnapshotResult.ADDED_FIRST_SNAPSHOT) []) ∧
    ((syncMessagesRun (some 5) (some 3) (fun _ => [])
        (fun _ => AddSnapshotResult.ADDED_FIRST_SNAPSHOT) false 1).finished = true →
      ∀ c, (syncMessagesRun (some 5) (some 3) (fun _ => [])
          (fun _ => AddSnapshotResult.ADDED_FIRST_SNAPSHOT) false 1).cursors.getLast? =
          some c →
        pageStopsLoop (fun _ => AddSnapshotResult.ADDED_FIRST_SNAPSHOT) [])) := by
  exact syncMessages_pagination_control (some 5) (some 3) (fun _ => [])
    (fun _ => AddSnapshotResult.ADDED_FIRST_SNAPSHOT) false 1 (by decide)

end GammaArchiver
